import Mathlib

/-!
Verification development for the `Lysoul/todo-list` service scaffold.

The Go sources embedded here:
  * `app/app.go` — the `Start` orchestrator: environment configuration via
    `envconfig.MustProcess`, two gin routes (`{prefix}/version`,
    `{prefix}/hello`), a telemetry listener on port 3030, signal wait, and a
    timeout-bounded shutdown that always returns `nil`.
  * `db/migrations/main.go` — the migration registry: `Migration =
    migrate.NewMigrations()`, an embedded SQL file system, and an `init`
    that panics when `Migration.Discover` fails.
  * `db/migrations/20251105065350_init.up.sql` — the single embedded
    migration file (an `.up.sql` with no matching `.down.sql`).

External libraries (gin/ginserver, envconfig, bun/migrate, monitoring) are
modelled by their documented behaviour at the exact call sites the sources
use; each such definition carries a doc comment saying what it models.
-/

namespace TodoList

/-! ## HTTP data model -/

/-- An incoming HTTP request: method, path, and the query parameters and
headers the handlers could in principle look at (the two handlers in
`app.go` look at none of them). -/
structure HttpRequest where
  method : String
  path : String
  query : List (String × String)
  headers : List (String × String)
  deriving Repr, DecidableEq

/-- A JSON object whose fields are string-valued, which is the shape of both
payloads `app.go` passes to `gin.Context.JSON` (`gin.H{"message": ...}` and
`gin.H{"version": ...}`). -/
structure JsonBody where
  fields : List (String × String)
  deriving Repr, DecidableEq

/-- An HTTP response as produced by `gin.Context.JSON(status, body)`. -/
structure HttpResponse where
  status : Nat
  body : JsonBody
  deriving Repr, DecidableEq

/-- The handler registered on `basePath + "/hello"` in `app.go`: it ignores
the request and answers `200 {"message": "Hello, World!"}`. -/
def helloHandler (_req : HttpRequest) : HttpResponse :=
  { status := 200, body := { fields := [("message", "Hello, World!")] } }

/-- The handler registered on `basePath + "/version"` in `app.go`: it ignores
the request and answers `200 {"version": Version}` for the package-level
`Version` value. -/
def versionHandler (version : String) (_req : HttpRequest) : HttpResponse :=
  { status := 200, body := { fields := [("version", version)] } }

/-- The package-level `var Version = "unknown"` of `app/app.go`: the build
may override it through linker flags (`ldflag`); without an override it is
the literal `"unknown"`. -/
def buildVersion (ldflag : Option String) : String :=
  match ldflag with
  | some v => v
  | none => "unknown"

/-- Route dispatch for the router `Start` builds: `GET basePath+"/version"`
and `GET basePath+"/hello"` are the only registered routes; anything else
falls through (gin answers 404, outside this model). -/
def handleRequest (basePath : String) (version : String) (req : HttpRequest) :
    Option HttpResponse :=
  if req.method = "GET" ∧ req.path = basePath ++ "/version" then
    some (versionHandler version req)
  else if req.method = "GET" ∧ req.path = basePath ++ "/hello" then
    some (helloHandler req)
  else
    none

/-! ## Environment and configuration

`Start` loads `Config` with `envconfig.MustProcess("", &config)`.  The
`Config` struct of `app.go` holds `HTTP ginserver.Config` and
`ShutdownTimeout time.Duration` with tag `envconfig:"SHUTDOWN_TIMEOUT"
default:"20s"`. -/

/-- A process environment: an association list from variable names to
values, first binding wins (as `os.Getenv` sees it). -/
def Env := List (String × String)

/-- Lookup of an environment variable, `none` when unset. -/
def lookupEnv (env : Env) (k : String) : Option String :=
  match env with
  | [] => none
  | (k', v) :: rest => if k' = k then some v else lookupEnv rest k

/-- Parse of a nonempty all-digit string into a `Nat`, as `strconv`-style
integer parsing accepts for a port number; `none` otherwise. -/
def parseNatDigits (cs : List Char) : Option Nat :=
  match cs with
  | [] => none
  | _ =>
    if cs.all Char.isDigit then
      some (cs.foldl (fun acc c => acc * 10 + (c.toNat - 48)) 0)
    else none

/-- Parse of a boolean environment value. Models `strconv.ParseBool` on the
two spellings the repository's env files use (`true` / `false`); anything
else is a configuration error. -/
def parseBoolEnv (s : String) : Option Bool :=
  if s = "true" then some true
  else if s = "false" then some false
  else none

/-- Leading-digit split of a character list: the maximal digit segment and
the rest. -/
def splitDigits : List Char → List Char × List Char
  | [] => ([], [])
  | c :: cs =>
    if c.isDigit then
      let (ds, rest) := splitDigits cs
      (c :: ds, rest)
    else
      ([], c :: cs)

/-- Nanoseconds per unit for the Go duration unit suffixes. -/
def durationUnitNs (cs : List Char) : Option Nat :=
  if cs = ['n', 's'] then some 1
  else if cs = ['u', 's'] then some 1000
  else if cs = ['m', 's'] then some 1000000
  else if cs = ['s'] then some 1000000000
  else if cs = ['m'] then some 60000000000
  else if cs = ['h'] then some 3600000000000
  else none

/-- Parse of a `time.Duration` value in nanoseconds. Models
`time.ParseDuration` on the integer-magnitude single-unit forms the
repository uses (such as the `"20s"` default tag); other strings are
configuration errors. -/
def parseGoDuration (s : String) : Option Nat :=
  match splitDigits s.data with
  | ([], _) => none
  | (ds, rest) =>
    match parseNatDigits ds, durationUnitNs rest with
    | some n, some u => some (n * u)
    | _, _ => none

/-- The HTTP settings of `ginserver.Config`. Modelled from the spec: the
`gocommon/ginserver` library is external to this repository; the spec names
its environment keys `HTTP_PORT`, `HTTP_PATH_PREFIX`, `HTTP_ENABLE_CORS`
and says invalid or missing required values abort the process. The `Prefix`
field is named `basePath` here, after the local variable `basePath :=
config.HTTP.Prefix` in `app.go`. -/
structure HttpConfig where
  port : Nat
  basePath : String
  enableCORS : Bool
  deriving Repr, DecidableEq

/-- The `Config` struct of `app/app.go`: the HTTP settings and the shutdown
timeout in nanoseconds (`time.Duration`). -/
structure Config where
  http : HttpConfig
  shutdownTimeout : Nat
  deriving Repr, DecidableEq

/-- Default of the `ShutdownTimeout` field, from its struct tag
`default:"20s"`, in nanoseconds. -/
def defaultShutdownTimeoutNs : Nat := 20000000000

/-- Configuration processing, as `envconfig.MustProcess("", &config)`
performs it over the `Config` struct: every value comes from the
environment, `SHUTDOWN_TIMEOUT` falls back to the `default:"20s"` tag, and
any missing required key or unparsable value is an error (`MustProcess`
panics on it). The HTTP part follows the spec-modelled `HttpConfig`. -/
def processConfig (env : Env) : Except String Config :=
  match lookupEnv env "HTTP_PORT" with
  | none => .error "required key HTTP_PORT missing value"
  | some portStr =>
    match parseNatDigits portStr.data with
    | none => .error "invalid value for HTTP_PORT"
    | some port =>
      let basePath := (lookupEnv env "HTTP_PATH_PREFIX").getD ""
      match parseBoolEnv ((lookupEnv env "HTTP_ENABLE_CORS").getD "false") with
      | none => .error "invalid value for HTTP_ENABLE_CORS"
      | some cors =>
        match parseGoDuration ((lookupEnv env "SHUTDOWN_TIMEOUT").getD "20s") with
        | none => .error "invalid value for SHUTDOWN_TIMEOUT"
        | some t =>
          .ok { http := { port := port, basePath := basePath, enableCORS := cors },
                shutdownTimeout := t }

/-! ## The Start sequence -/

/-- Observable steps of `app.Start`, in the order the function performs
them: route registration, the HTTP listener bind (`httpStart()`), the
telemetry listener bind (`monitoring.ServeTelemetry(3030)`), the block on
the signal channel, and the timeout-bounded stop. -/
inductive StartEvent where
  | routeRegistered (path : String)
  | httpBound (port : Nat)
  | telemetryBound (port : Nat)
  | signalWait
  | shutdownStarted (timeoutNs : Nat)
  deriving Repr, DecidableEq

/-- Outcome of running `Start`: `aborted` is the `envconfig.MustProcess`
panic on a configuration error; `exited e` is a normal return with error
value `e` (`none` models Go `nil`). -/
inductive StartResult where
  | aborted (msg : String)
  | exited (err : Option String)
  deriving Repr, DecidableEq

/-- The `Start` function of `app/app.go` as the trace of events it emits and
its outcome. `stopOutcome` is whatever the library `httpStop(ctx)` call
produces for the in-flight work (`Start` never inspects it and ends with
`return nil`). On a configuration error `MustProcess` panics first, so the
trace is empty: no route is registered and no listener binds. -/
def startRun (env : Env) (stopOutcome : Option String) :
    List StartEvent × StartResult :=
  match processConfig env with
  | .error e => ([], .aborted e)
  | .ok cfg =>
    let _ := stopOutcome
    ([.routeRegistered (cfg.http.basePath ++ "/version"),
      .routeRegistered (cfg.http.basePath ++ "/hello"),
      .httpBound cfg.http.port,
      .telemetryBound 3030,
      .signalWait,
      .shutdownStarted cfg.shutdownTimeout],
     .exited none)

/-- Elapsed time of the stop call, modelling `httpStop(ctx)` under
`context.WithTimeout(Background(), config.ShutdownTimeout)`: the underlying
graceful shutdown returns when the in-flight work drains (`drainNs`) or when
the context deadline expires, whichever comes first. -/
def shutdownElapsedNs (timeoutNs drainNs : Nat) : Nat :=
  min drainNs timeoutNs

/-! ## The migration registry

`db/migrations/main.go` embeds every `*.sql` file, builds `Migration =
migrate.NewMigrations()`, and in `init()` calls `Migration.Discover` over
the embedded file system, panicking on error.  The `bun/migrate` library is
external; its discovery and `Sorted` are modelled from their documented
behaviour as the spec describes it: file names `<14-digit timestamp>_<name>`
with `.up.sql` / `.down.sql` suffixes are grouped into one record per
migration name, a malformed migration file name is a discovery error, other
files are skipped, and `Sorted` returns the records ordered lexically by
name. -/

/-- An embedded file of the `//go:embed *.sql` file system: its path inside
the embed root and its raw byte content. -/
structure EmbeddedFile where
  path : String
  content : String
  deriving Repr, DecidableEq

/-- A migration record: the migration name (timestamp prefix plus
description, without direction suffix) and the raw SQL text of each
direction for which a file was discovered. -/
structure Migration where
  name : String
  upSQL : Option String
  downSQL : Option String
  deriving Repr, DecidableEq

/-- The registry the package-level `Migration` variable holds: the list of
discovered migration records. -/
structure Migrations where
  ms : List Migration
  deriving Repr, DecidableEq

/-- Drop of a leading segment: `dropPre ps cs` is the remainder of `cs`
after `ps`, or `none` when `cs` does not start with `ps`. -/
def dropPre : List Char → List Char → Option (List Char)
  | [], cs => some cs
  | _ :: _, [] => none
  | p :: ps, c :: cs => if c = p then dropPre ps cs else none

/-- Removal of a suffix from a character list: `some` of the stem when the
list ends with `suf`, `none` otherwise. -/
def dropSuffix (cs suf : List Char) : Option (List Char) :=
  (dropPre suf.reverse cs.reverse).map List.reverse

/-- Go byte-wise lexicographic string order (`s1 <= s2` on ASCII names),
on character lists. -/
def lexLe : List Char → List Char → Bool
  | [], _ => true
  | _ :: _, [] => false
  | a :: as, b :: bs => if a = b then lexLe as bs else decide (a < b)

/-- Character class of the description part of a migration name: ASCII
digits, lowercase letters, underscore and hyphen. -/
def isNameChar (c : Char) : Bool :=
  c.isDigit || (97 ≤ c.toNat && c.toNat ≤ 122) || c = '_' || c = '-'

/-- Well-formedness of a migration name (the file name with the direction
suffix removed): a 14-digit timestamp, an underscore, and a nonempty
description of name characters. -/
def wellFormedName (cs : List Char) : Bool :=
  decide ((cs.take 14).length = 14) && (cs.take 14).all Char.isDigit &&
    match cs.drop 14 with
    | [] => false
    | u :: rest => u = '_' && !rest.isEmpty && rest.all isNameChar

/-- Record update for an `.up.sql` file: the record named `n` gets `sql` as
its up text, appended as a fresh record when no record holds the name yet. -/
def setUp (ms : List Migration) (n : String) (sql : String) : List Migration :=
  match ms with
  | [] => [{ name := n, upSQL := some sql, downSQL := none }]
  | m :: rest =>
    if m.name = n then { m with upSQL := some sql } :: rest
    else m :: setUp rest n sql

/-- Record update for a `.down.sql` file, mirroring `setUp`. -/
def setDown (ms : List Migration) (n : String) (sql : String) : List Migration :=
  match ms with
  | [] => [{ name := n, upSQL := none, downSQL := some sql }]
  | m :: rest =>
    if m.name = n then { m with downSQL := some sql } :: rest
    else m :: setDown rest n sql

/-- Walk of the embedded files during discovery, accumulating the records
built so far; a migration file whose name is malformed is an error, a file
with neither direction suffix is skipped. -/
def discoverAux (acc : List Migration) :
    List EmbeddedFile → Except String (List Migration)
  | [] => .ok acc
  | f :: fs =>
    match dropSuffix f.path.data ".up.sql".data with
    | some stem =>
      if wellFormedName stem then
        discoverAux (setUp acc (String.mk stem) f.content) fs
      else .error ("unsupported migration name format: " ++ f.path)
    | none =>
      match dropSuffix f.path.data ".down.sql".data with
      | some stem =>
        if wellFormedName stem then
          discoverAux (setDown acc (String.mk stem) f.content) fs
        else .error ("unsupported migration name format: " ++ f.path)
      | none => discoverAux acc fs

/-- The `Migration.Discover(sqlMigrations)` call of the migrations package:
the registry built from the embedded files, or the discovery error the
`init` function turns into a panic. -/
def discover (files : List EmbeddedFile) : Except String Migrations :=
  (discoverAux [] files).map Migrations.mk

/-- Order of migration records: byte-wise lexicographic on names, the
comparison the external library's sort uses. -/
def migLe (a b : Migration) : Prop :=
  lexLe a.name.data b.name.data = true

instance : DecidableRel migLe := fun a b => by
  unfold migLe; infer_instance

/-- The `Migration.Sorted()` operation: a copy of the registry's records
ordered lexically by name. -/
def sortedMigrations (reg : Migrations) : List Migration :=
  List.insertionSort migLe reg.ms

/-- Runtime operations this repository performs on the registry after
initialization: listing the sorted migrations is the only one (the external
CLI iterates it); no mutating call occurs anywhere in the sources. -/
inductive RuntimeOp where
  | listSorted
  deriving Repr, DecidableEq

/-- Effect of one runtime operation: the (unchanged) registry and the list
the call returns. -/
def runOp (reg : Migrations) : RuntimeOp → Migrations × List Migration
  | .listSorted => (reg, sortedMigrations reg)

/-- Effect of a sequence of runtime operations: the final registry and each
call's returned list, in order. -/
def runOps (reg : Migrations) : List RuntimeOp → Migrations × List (List Migration)
  | [] => (reg, [])
  | op :: ops =>
    let (reg', out) := runOp reg op
    let (reg'', outs) := runOps reg' ops
    (reg'', out :: outs)

/-! ## Process boot

Go package initialization runs every `init` before `main`; the migrations
package's `init` panics when discovery fails, so on malformed embedded
input the process never reaches `main` and `Start` never runs. -/

/-- Outcome of starting the process binary: the `init` panic on a discovery
error, or the run of `main`'s `app start` path with its trace and result. -/
inductive BootOutcome where
  | panicked (msg : String)
  | ran (trace : List StartEvent) (result : StartResult)
  deriving Repr, DecidableEq

/-- Boot of the service process over the embedded migration files and the
environment: package initialization (migration discovery) first, then the
`Start` sequence. -/
def bootProcess (files : List EmbeddedFile) (env : Env)
    (stopOutcome : Option String) : BootOutcome :=
  match discover files with
  | .error e => .panicked e
  | .ok _ =>
    let (trace, result) := startRun env stopOutcome
    .ran trace result

/-- Numeric value of a digit list, most significant first. -/
def digitsVal : List Char → Nat
  | [] => 0
  | c :: cs => (c.toNat - 48) * 10 ^ cs.length + digitsVal cs

/-- Chronological key of a migration name: the numeric value of its 14-digit
timestamp prefix (the naming convention the repository's migration file
follows). -/
def timestampVal (cs : List Char) : Nat :=
  digitsVal (cs.take 14)

/-- Raw text of `db/migrations/20251105065350_init.up.sql`, the SQL schema
the single embedded migration applies. -/
def initUpSQL : String :=
  "CREATE TYPE task_priority AS ENUM ('low', 'medium', 'high', 'critical');\n" ++
  "CREATE TYPE reminder_vendor AS ENUM ('email', 'discord', 'slack', 'sms', 'push', 'webhook');\n" ++
  "\n" ++
  "CREATE TABLE IF NOT EXISTS tasks (\n" ++
  "    id SERIAL PRIMARY KEY,\n" ++
  "    title TEXT NOT NULL,\n" ++
  "    description TEXT,\n" ++
  "    priority task_priority NOT NULL DEFAULT 'medium',\n" ++
  "    started_at TIMESTAMPTZ,\n" ++
  "    ended_at TIMESTAMPTZ,\n" ++
  "    created_at TIMESTAMPTZ NOT NULL DEFAULT now(),\n" ++
  "    updated_at TIMESTAMPTZ NOT NULL DEFAULT now()\n" ++
  ");\n" ++
  "\n" ++
  "CREATE TABLE IF NOT EXISTS labels (\n" ++
  "    id SERIAL PRIMARY KEY,\n" ++
  "    name TEXT NOT NULL,\n" ++
  "    created_by TEXT,\n" ++
  "    created_at TIMESTAMPTZ NOT NULL DEFAULT now(),\n" ++
  "    updated_at TIMESTAMPTZ NOT NULL DEFAULT now()\n" ++
  ");\n" ++
  "\n" ++
  "CREATE TABLE IF NOT EXISTS reminders (\n" ++
  "    id SERIAL PRIMARY KEY,\n" ++
  "    task_id INTEGER NOT NULL REFERENCES tasks(id) ON DELETE CASCADE,\n" ++
  "    vendor reminder_vendor NOT NULL,\n" ++
  "    created_at TIMESTAMPTZ NOT NULL DEFAULT now(),\n" ++
  "    updated_at TIMESTAMPTZ NOT NULL DEFAULT now()\n" ++
  ");\n" ++
  "\n" ++
  "CREATE TABLE IF NOT EXISTS task_labels (\n" ++
  "    task_id INTEGER NOT NULL REFERENCES tasks(id) ON DELETE CASCADE,\n" ++
  "    label_id INTEGER NOT NULL REFERENCES labels(id) ON DELETE CASCADE,\n" ++
  "    PRIMARY KEY (task_id, label_id)\n" ++
  ");\n" ++
  "\n" ++
  "CREATE INDEX IF NOT EXISTS idx_tasks_created_at ON tasks (created_at);\n" ++
  "CREATE INDEX IF NOT EXISTS idx_labels_name ON labels (name);\n" ++
  "CREATE INDEX IF NOT EXISTS idx_reminders_task_id ON reminders (task_id);"

/-- The embedded migration file set of this repository:
`db/migrations/20251105065350_init.up.sql` is the only `*.sql` file the
`//go:embed` pattern picks up. -/
def repoFiles : List EmbeddedFile :=
  [{ path := "20251105065350_init.up.sql", content := initUpSQL }]

/-- The registry discovery builds from `repoFiles`: one record, carrying the
up SQL of the single embedded file and no down SQL. -/
def repoRegistry : Migrations :=
  { ms := [{ name := "20251105065350_init", upSQL := some initUpSQL,
             downSQL := none }] }

/-! ## Order lemmas for the lexicographic comparison -/

theorem lexLe_total : ∀ as bs : List Char, lexLe as bs = true ∨ lexLe bs as = true
  | [], _ => Or.inl rfl
  | _ :: _, [] => Or.inr rfl
  | a :: as, b :: bs => by
    by_cases hab : a = b
    · subst hab
      simpa [lexLe] using lexLe_total as bs
    · rcases lt_or_gt_of_ne hab with h | h
      · exact Or.inl (by simp [lexLe, hab]; exact h)
      · exact Or.inr (by simp [lexLe, Ne.symm hab]; exact h)

theorem lexLe_trans : ∀ as bs cs : List Char,
    lexLe as bs = true → lexLe bs cs = true → lexLe as cs = true
  | [], _, _, _, _ => rfl
  | _ :: _, [], _, h1, _ => by simp [lexLe] at h1
  | _ :: _, _ :: _, [], _, h2 => by simp [lexLe] at h2
  | a :: as, b :: bs, c :: cs, h1, h2 => by
    by_cases hab : a = b <;> by_cases hbc : b = c
    · subst hab; subst hbc
      simp [lexLe] at h1 h2 ⊢
      exact lexLe_trans as bs cs h1 h2
    · subst hab
      simp [lexLe, hbc] at h2 ⊢
      exact h2
    · subst hbc
      simp [lexLe, hab] at h1 ⊢
      exact h1
    · simp [lexLe, hab] at h1
      simp [lexLe, hbc] at h2
      have hac : a < c := lt_trans h1 h2
      simp [lexLe, ne_of_lt hac]
      exact hac

instance : IsTotal Migration migLe :=
  ⟨fun a b => lexLe_total a.name.data b.name.data⟩

instance : IsTrans Migration migLe :=
  ⟨fun a b c => lexLe_trans a.name.data b.name.data c.name.data⟩

theorem lexLe_take : ∀ (n : Nat) (as bs : List Char), lexLe as bs = true →
    lexLe (as.take n) (bs.take n) = true
  | 0, _, _, _ => rfl
  | _ + 1, [], _, _ => rfl
  | _ + 1, _ :: _, [], h => by simp [lexLe] at h
  | n + 1, a :: as, b :: bs, h => by
    by_cases hab : a = b
    · subst hab
      simp [lexLe] at h ⊢
      exact lexLe_take n as bs h
    · simp [lexLe, hab] at h ⊢
      exact h

/-! ## Digit-value lemmas: lexical order on equal-length digit strings is
numeric order, so the lexical sort of timestamp-prefixed names is
chronological. -/

theorem digit_toNat_bounds {c : Char} (h : c.isDigit = true) :
    48 ≤ c.toNat ∧ c.toNat ≤ 57 := by
  simp [Char.isDigit] at h
  exact ⟨h.1, h.2⟩

theorem digitsVal_lt (cs : List Char) (h : cs.all Char.isDigit = true) :
    digitsVal cs < 10 ^ cs.length := by
  induction cs with
  | nil => simp [digitsVal]
  | cons c cs ih =>
    rw [List.all_cons, Bool.and_eq_true] at h
    have h9 : c.toNat - 48 ≤ 9 := by
      have := digit_toNat_bounds h.1
      omega
    have hrest := ih h.2
    have hmul : (c.toNat - 48) * 10 ^ cs.length ≤ 9 * 10 ^ cs.length :=
      Nat.mul_le_mul_right _ h9
    calc digitsVal (c :: cs)
        = (c.toNat - 48) * 10 ^ cs.length + digitsVal cs := rfl
      _ < (c.toNat - 48) * 10 ^ cs.length + 10 ^ cs.length := by omega
      _ ≤ 9 * 10 ^ cs.length + 10 ^ cs.length := by omega
      _ = 10 ^ (c :: cs).length := by
          rw [List.length_cons, pow_succ]; ring

theorem lexLe_digitsVal_le : ∀ as bs : List Char, as.length = bs.length →
    as.all Char.isDigit = true → bs.all Char.isDigit = true →
    lexLe as bs = true → digitsVal as ≤ digitsVal bs
  | [], [], _, _, _, _ => le_refl 0
  | [], _ :: _, hlen, _, _, _ => by simp at hlen
  | _ :: _, [], hlen, _, _, _ => by simp at hlen
  | a :: as, b :: bs, hlen, hda, hdb, hle => by
    rw [List.length_cons, List.length_cons] at hlen
    have hlen' : as.length = bs.length := by omega
    rw [List.all_cons, Bool.and_eq_true] at hda hdb
    by_cases hab : a = b
    · subst hab
      simp [lexLe] at hle
      have htail := lexLe_digitsVal_le as bs hlen' hda.2 hdb.2 hle
      calc digitsVal (a :: as)
          = (a.toNat - 48) * 10 ^ as.length + digitsVal as := rfl
        _ ≤ (a.toNat - 48) * 10 ^ bs.length + digitsVal bs := by
            rw [hlen']; omega
        _ = digitsVal (a :: bs) := rfl
    · simp [lexLe, hab] at hle
      have hna : a.toNat < b.toNat := hle
      have hb48 := digit_toNat_bounds hda.1
      have hd : a.toNat - 48 + 1 ≤ b.toNat - 48 := by omega
      have hra : digitsVal as < 10 ^ as.length := digitsVal_lt as hda.2
      refine le_of_lt ?_
      calc digitsVal (a :: as)
          = (a.toNat - 48) * 10 ^ as.length + digitsVal as := rfl
        _ < (a.toNat - 48) * 10 ^ as.length + 10 ^ as.length := by omega
        _ = (a.toNat - 48 + 1) * 10 ^ as.length := by ring
        _ ≤ (b.toNat - 48) * 10 ^ as.length := Nat.mul_le_mul_right _ hd
        _ = (b.toNat - 48) * 10 ^ bs.length := by rw [hlen']
        _ ≤ (b.toNat - 48) * 10 ^ bs.length + digitsVal bs := Nat.le_add_right _ _
        _ = digitsVal (b :: bs) := rfl

theorem wellFormedName_take {cs : List Char} (h : wellFormedName cs = true) :
    (cs.take 14).length = 14 ∧ (cs.take 14).all Char.isDigit = true := by
  unfold wellFormedName at h
  rw [Bool.and_eq_true, Bool.and_eq_true] at h
  exact ⟨of_decide_eq_true h.1.1, h.1.2⟩

theorem lexLe_timestampVal {as bs : List Char}
    (ha : wellFormedName as = true) (hb : wellFormedName bs = true)
    (h : lexLe as bs = true) : timestampVal as ≤ timestampVal bs := by
  obtain ⟨hla, hda⟩ := wellFormedName_take ha
  obtain ⟨hlb, hdb⟩ := wellFormedName_take hb
  exact lexLe_digitsVal_le _ _ (by rw [hla, hlb]) hda hdb (lexLe_take 14 as bs h)

/-! ## Discovery invariant: every record a successful discovery yields has a
well-formed name (discovery errors out on any malformed migration file). -/

theorem setUp_wf : ∀ (ms : List Migration) (n sql : String),
    (∀ m ∈ ms, wellFormedName m.name.data = true) →
    wellFormedName n.data = true →
    ∀ m ∈ setUp ms n sql, wellFormedName m.name.data = true
  | [], _, _, _, hn, m, hm => by
    simp [setUp] at hm
    subst hm
    exact hn
  | m0 :: rest, n, sql, hms, hn, m, hm => by
    rw [setUp] at hm
    by_cases h0 : m0.name = n
    · rw [if_pos h0] at hm
      rcases List.mem_cons.mp hm with h | h
      · subst h
        exact hms m0 (List.mem_cons_self _ _)
      · exact hms m (List.mem_cons_of_mem _ h)
    · rw [if_neg h0] at hm
      rcases List.mem_cons.mp hm with h | h
      · subst h
        exact hms m (List.mem_cons_self _ _)
      · exact setUp_wf rest n sql
          (fun m' hm' => hms m' (List.mem_cons_of_mem _ hm')) hn m h

theorem setDown_wf : ∀ (ms : List Migration) (n sql : String),
    (∀ m ∈ ms, wellFormedName m.name.data = true) →
    wellFormedName n.data = true →
    ∀ m ∈ setDown ms n sql, wellFormedName m.name.data = true
  | [], _, _, _, hn, m, hm => by
    simp [setDown] at hm
    subst hm
    exact hn
  | m0 :: rest, n, sql, hms, hn, m, hm => by
    rw [setDown] at hm
    by_cases h0 : m0.name = n
    · rw [if_pos h0] at hm
      rcases List.mem_cons.mp hm with h | h
      · subst h
        exact hms m0 (List.mem_cons_self _ _)
      · exact hms m (List.mem_cons_of_mem _ h)
    · rw [if_neg h0] at hm
      rcases List.mem_cons.mp hm with h | h
      · subst h
        exact hms m (List.mem_cons_self _ _)
      · exact setDown_wf rest n sql
          (fun m' hm' => hms m' (List.mem_cons_of_mem _ hm')) hn m h

theorem discoverAux_wf (files : List EmbeddedFile) :
    ∀ acc reg : List Migration,
    (∀ m ∈ acc, wellFormedName m.name.data = true) →
    discoverAux acc files = .ok reg →
    ∀ m ∈ reg, wellFormedName m.name.data = true := by
  induction files with
  | nil =>
    intro acc reg hacc heq
    simp [discoverAux] at heq
    subst heq
    exact hacc
  | cons f fs ih =>
    intro acc reg hacc heq
    rw [discoverAux] at heq
    split at heq
    · rename_i stem hstem
      split at heq
      · rename_i hwf
        exact ih _ _ (setUp_wf acc (String.mk stem) f.content hacc hwf) heq
      · exact absurd heq (by simp)
    · split at heq
      · rename_i stem hstem
        split at heq
        · rename_i hwf
          exact ih _ _ (setDown_wf acc (String.mk stem) f.content hacc hwf) heq
        · exact absurd heq (by simp)
      · exact ih _ _ hacc heq

theorem discover_wf {files : List EmbeddedFile} {reg : Migrations}
    (h : discover files = .ok reg) :
    ∀ m ∈ reg.ms, wellFormedName m.name.data = true := by
  unfold discover at h
  cases hd : discoverAux [] files with
  | error e =>
    rw [hd] at h
    simp [Except.map] at h
  | ok ms =>
    rw [hd] at h
    simp [Except.map] at h
    subst h
    exact discoverAux_wf files [] ms (by simp) hd

/-! ## Runtime operations on the registry never change it, and every
listing call returns the same sorted copy. -/

theorem runOps_spec (reg : Migrations) (ops : List RuntimeOp) :
    (runOps reg ops).1 = reg ∧
    ∀ out ∈ (runOps reg ops).2, out = sortedMigrations reg := by
  induction ops with
  | nil => exact ⟨rfl, by simp [runOps]⟩
  | cons op ops ih =>
    cases op with
    | listSorted =>
      refine ⟨?_, ?_⟩
      · simpa [runOps, runOp] using ih.1
      · intro out hout
        simp [runOps, runOp] at hout
        rcases hout with h | h
        · exact h
        · exact ih.2 out h

/-! ## String append helpers for route dispatch. -/

theorem strData_append (a b : String) : (a ++ b).data = a.data ++ b.data := by
  cases a
  cases b
  rfl

theorem append_hello_ne_version (basePath : String) :
    basePath ++ "/hello" ≠ basePath ++ "/version" := by
  intro hcontra
  have hdata := congrArg String.data hcontra
  rw [strData_append, strData_append] at hdata
  have := List.append_cancel_left hdata
  exact absurd this (by decide)

/-- Projection of a successful configuration load onto the shutdown timeout:
the value is exactly what duration parsing of `SHUTDOWN_TIMEOUT` (or the
`"20s"` default tag) produced. -/
theorem processConfig_timeout {env : Env} {cfg : Config}
    (h : processConfig env = .ok cfg) :
    parseGoDuration ((lookupEnv env "SHUTDOWN_TIMEOUT").getD "20s") =
      some cfg.shutdownTimeout := by
  unfold processConfig at h
  split at h
  · exact absurd h (by simp)
  · split at h
    · exact absurd h (by simp)
    · split at h
      · exact absurd h (by simp)
      · split at h
        · exact absurd h (by simp)
        · rename_i t ht
          cases h
          exact ht

/-! ## The claims -/

/-- C1: for every request, `GET {prefix}/hello` returns HTTP status 200 with
body `{"message":"Hello, World!"}`, regardless of query parameters or
headers. -/
theorem hello_always_ok (basePath version : String) (req : HttpRequest)
    (hm : req.method = "GET") (hp : req.path = basePath ++ "/hello") :
    handleRequest basePath version req =
      some { status := 200,
             body := { fields := [("message", "Hello, World!")] } } := by
  unfold handleRequest
  rw [if_neg, if_pos ⟨hm, hp⟩]
  · rfl
  · rintro ⟨-, hpv⟩
    exact append_hello_ne_version basePath (hp.symm.trans hpv)

theorem hello_always_ok_witness :
    ("GET" : String) = "GET" ∧ ("/api/hello" : String) = "/api" ++ "/hello" ∧
    handleRequest "/api" "v1.2.3"
        { method := "GET", path := "/api/hello",
          query := [("debug", "1")], headers := [("X-Test", "yes")] } =
      some { status := 200,
             body := { fields := [("message", "Hello, World!")] } } :=
  ⟨rfl, rfl,
    hello_always_ok "/api" "v1.2.3"
      { method := "GET", path := "/api/hello",
        query := [("debug", "1")], headers := [("X-Test", "yes")] }
      rfl rfl⟩

/-- C2: for every request, `GET {prefix}/version` returns HTTP status 200
with body `{"version": v}` where `v` is the build-time version string, and
`v` equals `"unknown"` when no version was set at build time. -/
theorem version_endpoint_ok (basePath : String) (ldflag : Option String)
    (req : HttpRequest) (hm : req.method = "GET")
    (hp : req.path = basePath ++ "/version") :
    handleRequest basePath (buildVersion ldflag) req =
      some { status := 200,
             body := { fields := [("version", buildVersion ldflag)] } } ∧
    buildVersion none = "unknown" := by
  refine ⟨?_, rfl⟩
  unfold handleRequest
  rw [if_pos ⟨hm, hp⟩]
  rfl

theorem version_endpoint_ok_witness :
    ("GET" : String) = "GET" ∧ ("/version" : String) = "" ++ "/version" ∧
    (handleRequest "" (buildVersion none)
        { method := "GET", path := "/version",
          query := [("q", "1")], headers := [("Accept", "application/json")] } =
      some { status := 200,
             body := { fields := [("version", buildVersion none)] } } ∧
     buildVersion none = "unknown") :=
  ⟨rfl, rfl,
    version_endpoint_ok "" none
      { method := "GET", path := "/version",
        query := [("q", "1")], headers := [("Accept", "application/json")] }
      rfl rfl⟩

/-- C3: if migration discovery over the embedded SQL files fails, package
initialization panics, so the process aborts before registering any route or
serving any request — the boot outcome is the panic, never a run with a
trace. -/
theorem discover_error_aborts_boot (files : List EmbeddedFile) (env : Env)
    (stopOutcome : Option String) (e : String)
    (h : discover files = .error e) :
    bootProcess files env stopOutcome = .panicked e ∧
    ∀ trace result, bootProcess files env stopOutcome ≠ .ran trace result := by
  unfold bootProcess
  rw [h]
  exact ⟨rfl, fun trace result hcontra => BootOutcome.noConfusion hcontra⟩

theorem discover_error_aborts_boot_witness :
    discover [{ path := "bad.up.sql", content := "" }] =
      .error "unsupported migration name format: bad.up.sql" ∧
    (bootProcess [{ path := "bad.up.sql", content := "" }]
        [("HTTP_PORT", "8080")] none =
      .panicked "unsupported migration name format: bad.up.sql" ∧
     ∀ trace result,
       bootProcess [{ path := "bad.up.sql", content := "" }]
          [("HTTP_PORT", "8080")] none ≠ .ran trace result) :=
  ⟨rfl,
    discover_error_aborts_boot [{ path := "bad.up.sql", content := "" }]
      [("HTTP_PORT", "8080")] none
      "unsupported migration name format: bad.up.sql" rfl⟩

/-- C4: if a required environment variable is missing or invalid, `Start`
aborts during configuration processing (the `MustProcess` panic), before the
HTTP listener or the telemetry listener binds to any port: the event trace
is empty and in particular holds no bind event. -/
theorem config_error_aborts_before_bind (env : Env)
    (stopOutcome : Option String) (e : String)
    (h : processConfig env = .error e) :
    startRun env stopOutcome = ([], .aborted e) ∧
    ∀ p, StartEvent.httpBound p ∉ (startRun env stopOutcome).1 ∧
         StartEvent.telemetryBound p ∉ (startRun env stopOutcome).1 := by
  have htrace : startRun env stopOutcome = ([], .aborted e) := by
    unfold startRun
    rw [h]
  refine ⟨htrace, fun p => ?_⟩
  rw [htrace]
  exact ⟨List.not_mem_nil _, List.not_mem_nil _⟩

theorem config_error_aborts_before_bind_witness :
    processConfig [("SHUTDOWN_TIMEOUT", "20s")] =
      .error "required key HTTP_PORT missing value" ∧
    (startRun [("SHUTDOWN_TIMEOUT", "20s")] none =
      ([], .aborted "required key HTTP_PORT missing value") ∧
     ∀ p, StartEvent.httpBound p ∉
            (startRun [("SHUTDOWN_TIMEOUT", "20s")] none).1 ∧
          StartEvent.telemetryBound p ∉
            (startRun [("SHUTDOWN_TIMEOUT", "20s")] none).1) :=
  ⟨rfl,
    config_error_aborts_before_bind [("SHUTDOWN_TIMEOUT", "20s")] none
      "required key HTTP_PORT missing value" rfl⟩

/-- C5: once a signal is received, the shutdown sequence is bounded by the
configured shutdown timeout — the stop call under the timeout context
finishes within the window whatever the drain takes — the timeout defaults
to 20 seconds when `SHUTDOWN_TIMEOUT` is unset, and the stop `Start` invokes
carries exactly the configured timeout. -/
theorem shutdown_bounded_by_timeout (env : Env) (cfg : Config)
    (h : processConfig env = .ok cfg) :
    (∀ drainNs, shutdownElapsedNs cfg.shutdownTimeout drainNs ≤
      cfg.shutdownTimeout) ∧
    (lookupEnv env "SHUTDOWN_TIMEOUT" = none →
      cfg.shutdownTimeout = defaultShutdownTimeoutNs) ∧
    ∀ stopOutcome,
      StartEvent.shutdownStarted cfg.shutdownTimeout ∈
        (startRun env stopOutcome).1 := by
  refine ⟨fun drainNs => Nat.min_le_right _ _, ?_, ?_⟩
  · intro hunset
    have ht := processConfig_timeout h
    rw [hunset] at ht
    have h20 : parseGoDuration ((none : Option String).getD "20s") =
        some defaultShutdownTimeoutNs := rfl
    rw [h20] at ht
    exact (Option.some.inj ht).symm
  · intro stopOutcome
    unfold startRun
    rw [h]
    simp

theorem shutdown_bounded_by_timeout_witness :
    processConfig [("HTTP_PORT", "8080")] =
      .ok { http := { port := 8080, basePath := "", enableCORS := false },
            shutdownTimeout := 20000000000 } ∧
    ((∀ drainNs, shutdownElapsedNs 20000000000 drainNs ≤ 20000000000) ∧
     (lookupEnv [("HTTP_PORT", "8080")] "SHUTDOWN_TIMEOUT" = none →
       (20000000000 : Nat) = defaultShutdownTimeoutNs) ∧
     ∀ stopOutcome,
       StartEvent.shutdownStarted 20000000000 ∈
         (startRun [("HTTP_PORT", "8080")] stopOutcome).1) :=
  ⟨rfl,
    shutdown_bounded_by_timeout [("HTTP_PORT", "8080")]
      { http := { port := 8080, basePath := "", enableCORS := false },
        shutdownTimeout := 20000000000 } rfl⟩

/-- C6: within one process lifetime, every pair of calls to the list-sorted
operation returns lists equal in length and element order, and the registry
state is unchanged by the whole run: the repository performs no mutation
after initialization. -/
theorem sorted_calls_stable (reg : Migrations) (ops : List RuntimeOp) :
    (runOps reg ops).1 = reg ∧
    ∀ o1 ∈ (runOps reg ops).2, ∀ o2 ∈ (runOps reg ops).2,
      o1.length = o2.length ∧ o1 = o2 := by
  refine ⟨(runOps_spec reg ops).1, fun o1 h1 o2 h2 => ?_⟩
  rw [(runOps_spec reg ops).2 o1 h1, (runOps_spec reg ops).2 o2 h2]
  exact ⟨rfl, rfl⟩

theorem sorted_calls_stable_witness :
    sortedMigrations repoRegistry ∈
      (runOps repoRegistry [RuntimeOp.listSorted, RuntimeOp.listSorted]).2 ∧
    ((runOps repoRegistry [RuntimeOp.listSorted, RuntimeOp.listSorted]).1 =
        repoRegistry ∧
     (sortedMigrations repoRegistry).length =
        (sortedMigrations repoRegistry).length ∧
     sortedMigrations repoRegistry = sortedMigrations repoRegistry) := by
  have hmem : sortedMigrations repoRegistry ∈
      (runOps repoRegistry [RuntimeOp.listSorted, RuntimeOp.listSorted]).2 := by
    simp [runOps, runOp]
  have hmain := sorted_calls_stable repoRegistry
    [RuntimeOp.listSorted, RuntimeOp.listSorted]
  exact ⟨hmem, hmain.1, hmain.2 _ hmem _ hmem⟩

/-- C7: a successful discovery yields a registry whose sorted listing — the
list exposed to the external CLI — is the full set of discovered migrations
(a permutation of the registry), ordered lexically by name, which given the
timestamp-prefix naming convention is chronological order (timestamp values
are nondecreasing along the list). -/
theorem sorted_full_lexical_chronological (files : List EmbeddedFile)
    (reg : Migrations) (h : discover files = .ok reg) :
    (sortedMigrations reg).Perm reg.ms ∧
    (sortedMigrations reg).Pairwise migLe ∧
    (sortedMigrations reg).Pairwise
      (fun a b => timestampVal a.name.data ≤ timestampVal b.name.data) := by
  refine ⟨List.perm_insertionSort migLe reg.ms,
          List.sorted_insertionSort migLe reg.ms, ?_⟩
  have hwf := discover_wf h
  have hmem : ∀ m ∈ sortedMigrations reg, wellFormedName m.name.data = true :=
    fun m hm => hwf m ((List.perm_insertionSort migLe reg.ms).mem_iff.mp hm)
  exact (List.sorted_insertionSort migLe reg.ms).imp_of_mem
    (fun ha hb hab => lexLe_timestampVal (hmem _ ha) (hmem _ hb) hab)

theorem sorted_full_lexical_chronological_witness :
    discover repoFiles = .ok repoRegistry ∧
    ((sortedMigrations repoRegistry).Perm repoRegistry.ms ∧
     (sortedMigrations repoRegistry).Pairwise migLe ∧
     (sortedMigrations repoRegistry).Pairwise
       (fun a b => timestampVal a.name.data ≤ timestampVal b.name.data)) :=
  ⟨rfl, sorted_full_lexical_chronological repoFiles repoRegistry rfl⟩

/-- C8 counterexample: it is not the case that every migration record in the
registry holds raw SQL text for both directions — discovery over the
repository's embedded files yields the `20251105065350_init` record with no
down SQL, because no `.down.sql` file is embedded. -/
theorem not_every_migration_has_down :
    discover repoFiles = .ok repoRegistry ∧
    ¬ ∀ m ∈ repoRegistry.ms, m.upSQL.isSome = true ∧ m.downSQL.isSome = true := by
  refine ⟨rfl, fun hall => ?_⟩
  have h := (hall { name := "20251105065350_init", upSQL := some initUpSQL,
                    downSQL := none } (by simp [repoRegistry])).2
  simp at h

/-- C8 amended: every migration record holds the raw SQL text of each
direction for which a file is embedded; the single embedded migration has
only an up file, so its record holds the raw up SQL and no down SQL. -/
theorem migration_records_match_embedded_files :
    discover repoFiles = .ok repoRegistry ∧
    repoRegistry.ms = [{ name := "20251105065350_init",
                         upSQL := some initUpSQL, downSQL := none }] :=
  ⟨rfl, rfl⟩

/-- C9: shutdown errors are not distinguished from success — after the
signal, `Start` invokes the stop with the configured timeout and returns
`nil` (`exited none`) for every possible outcome of the stop call. -/
theorem start_returns_nil_after_stop (env : Env) (cfg : Config)
    (h : processConfig env = .ok cfg) :
    ∀ stopOutcome : Option String,
      StartEvent.shutdownStarted cfg.shutdownTimeout ∈
        (startRun env stopOutcome).1 ∧
      (startRun env stopOutcome).2 = .exited none := by
  intro stopOutcome
  unfold startRun
  rw [h]
  exact ⟨by simp, rfl⟩

theorem start_returns_nil_after_stop_witness :
    processConfig [("HTTP_PORT", "8080")] =
      .ok { http := { port := 8080, basePath := "", enableCORS := false },
            shutdownTimeout := 20000000000 } ∧
    (StartEvent.shutdownStarted 20000000000 ∈
       (startRun [("HTTP_PORT", "8080")] (some "stop failed")).1 ∧
     (startRun [("HTTP_PORT", "8080")] (some "stop failed")).2 =
       .exited none) :=
  ⟨rfl,
    start_returns_nil_after_stop [("HTTP_PORT", "8080")]
      { http := { port := 8080, basePath := "", enableCORS := false },
        shutdownTimeout := 20000000000 } rfl (some "stop failed")⟩

/-- C10: the telemetry listener always serves on port 3030 — whenever
`Start` gets far enough to bind it, the bound port is the hard-coded 3030,
for every environment and configuration. -/
theorem telemetry_port_fixed_3030 (env : Env) (cfg : Config)
    (h : processConfig env = .ok cfg) (stopOutcome : Option String) :
    StartEvent.telemetryBound 3030 ∈ (startRun env stopOutcome).1 ∧
    ∀ p, StartEvent.telemetryBound p ∈ (startRun env stopOutcome).1 →
      p = 3030 := by
  unfold startRun
  rw [h]
  refine ⟨by simp, fun p hp => ?_⟩
  simp at hp
  exact hp

theorem telemetry_port_fixed_3030_witness :
    processConfig [("HTTP_PORT", "9999"), ("HTTP_PATH_PREFIX", "/v1"),
                   ("HTTP_ENABLE_CORS", "true"), ("SHUTDOWN_TIMEOUT", "5s")] =
      .ok { http := { port := 9999, basePath := "/v1", enableCORS := true },
            shutdownTimeout := 5000000000 } ∧
    (StartEvent.telemetryBound 3030 ∈
       (startRun [("HTTP_PORT", "9999"), ("HTTP_PATH_PREFIX", "/v1"),
                  ("HTTP_ENABLE_CORS", "true"), ("SHUTDOWN_TIMEOUT", "5s")]
          none).1 ∧
     ∀ p, StartEvent.telemetryBound p ∈
            (startRun [("HTTP_PORT", "9999"), ("HTTP_PATH_PREFIX", "/v1"),
                       ("HTTP_ENABLE_CORS", "true"), ("SHUTDOWN_TIMEOUT", "5s")]
               none).1 → p = 3030) :=
  ⟨rfl,
    telemetry_port_fixed_3030
      [("HTTP_PORT", "9999"), ("HTTP_PATH_PREFIX", "/v1"),
       ("HTTP_ENABLE_CORS", "true"), ("SHUTDOWN_TIMEOUT", "5s")]
      { http := { port := 9999, basePath := "/v1", enableCORS := true },
        shutdownTimeout := 5000000000 } rfl none⟩

end TodoList
